import Mathlib

/-!
# Verification of the tidal-dl-mcp session lifecycle and process bridge

Shallow embedding of the core of the `tidal-dl-mcp` repository:

* the session cache of `src/tidal_api/app.py` (`get_or_create_session`,
  `invalidate_session_cache`),
* the backend batch-search endpoint (`batch_search` / `search_single`),
* the batch-recommendation merge (`get_batch_recommendations`),
* the playlist listing endpoint (`get_user_playlists`),
* the process supervisor of `src/mcp_server/utils.py` (`start_flask_app`,
  `shutdown_flask_app`),
* the tool-side query normalisation of `src/mcp_server/server.py`
  (`batch_search_tidal`).

External collaborators (the tidalapi client, the OS, the wall clock, the
thread scheduler) are modelled as explicit oracle parameters, so each
embedded function is a pure Lean function of the Python function's inputs
plus the environment's answers.
-/

namespace TidalDlMcp

/-! ## Session cache (`src/tidal_api/app.py`, lines 26-74)

The Python module keeps three globals guarded by one lock:
`_cached_session : Optional[BrowserSession]`, `_session_last_validated : float`,
and the constant `SESSION_CACHE_TTL = 300`.  We model a `BrowserSession`
as an opaque tag (`Nat`), the globals as `SessionCacheState`, and the
environment of one call (the credential file and the opaque validation done
by `BrowserSession().login_session_file_auto(SESSION_FILE)`) as `SessionEnv`.
Timestamps are integers (seconds); the TTL comparison in the source is
`(now - _session_last_validated) < SESSION_CACHE_TTL`.
-/

/-- Opaque authenticated session object (`BrowserSession`). -/
abbrev Session := Nat

/-- The module-level cache state: `_cached_session` and `_session_last_validated`. -/
structure SessionCacheState where
  cachedSession : Option Session
  lastValidated : Int
  deriving Repr, DecidableEq

/-- `SESSION_CACHE_TTL = 300` seconds. -/
def SESSION_CACHE_TTL : Int := 300

/-- Outcome of `BrowserSession().login_session_file_auto(SESSION_FILE)`:
it returns a truthy value (success), returns a falsy value, or raises. -/
inductive ValidationResult where
  | ok (s : Session)
  | failed
  | raised (msg : String)
  deriving Repr, DecidableEq

/-- The environment of one `get_or_create_session` call: whether
`SESSION_FILE.exists()` and what the validation attempt would produce. -/
structure SessionEnv where
  fileExists : Bool
  validate : ValidationResult
  deriving Repr, DecidableEq

/-- Observable side effects of one call: how many times the credential file
was consulted (`SESSION_FILE.exists()` on the revalidation path) and how many
times the validation hook (`login_session_file_auto`) ran. -/
structure SessionCallTrace where
  fileChecks : Nat
  validateCalls : Nat
  deriving Repr, DecidableEq

/-- Result of one `get_or_create_session` call: the returned value, the new
global state, and the observable trace. -/
structure SessionCallResult where
  ret : Option Session
  state : SessionCacheState
  trace : SessionCallTrace
  deriving Repr, DecidableEq

/-- Embedding of `get_or_create_session` (app.py lines 34-66).  The body runs
under `_session_lock`; `now` is the value of `time.time()` read inside the
critical section.  On a cache hit the cached session is returned unchanged;
otherwise the credential file is consulted and, if present, validated; only
the success branch writes the timestamp, and it writes it together with the
cache entry.  Every failure path sets `_cached_session = None` and returns
`None`; exceptions from the validation attempt are caught inside the
function, so the call never raises. -/
def get_or_create_session (env : SessionEnv) (st : SessionCacheState)
    (now : Int) : SessionCallResult :=
  if st.cachedSession.isSome ∧ now - st.lastValidated < SESSION_CACHE_TTL then
    { ret := st.cachedSession, state := st, trace := ⟨0, 0⟩ }
  else if ¬ env.fileExists then
    { ret := none, state := { st with cachedSession := none }, trace := ⟨1, 0⟩ }
  else
    match env.validate with
    | .ok s =>
        { ret := some s
          state := { cachedSession := some s, lastValidated := now }
          trace := ⟨1, 1⟩ }
    | .failed =>
        { ret := none, state := { st with cachedSession := none }, trace := ⟨1, 1⟩ }
    | .raised _ =>
        { ret := none, state := { st with cachedSession := none }, trace := ⟨1, 1⟩ }

/-- Embedding of `invalidate_session_cache` (app.py lines 69-74): under the
lock, set `_cached_session = None` and `_session_last_validated = 0` in one
critical section. -/
def invalidate_session_cache (_st : SessionCacheState) : SessionCacheState :=
  { cachedSession := none, lastValidated := 0 }

/-! ## Batch search (`src/tidal_api/app.py`, lines 259-369)

The route body parses the JSON payload, clamps `limit_per_query` to
`[1, 20]`, and then runs `search_single` on every query in input order,
appending each result to `results`.  A query item arriving over JSON is a
string, a JSON object, or some other JSON value (Python then takes
`str(query_obj)`).  The remote search `search_session.search(...)` is an
oracle: for a query string, a model selection and a limit it either
produces a formatted payload or raises. -/

/-- One element of the `queries` array of the batch-search payload. -/
inductive QueryItem where
  | str (s : String)
  | dict (query : Option String) (ty : Option String)
  | other (repr : String)
  deriving Repr, DecidableEq

/-- The model selection `model_map.get(search_type.lower(), [tidalapi.Track])`
used by `search_single`: unknown type strings fall back to track search. -/
inductive SearchModels where
  | track
  | album
  | artist
  | playlist
  | all
  deriving Repr, DecidableEq

/-- `model_map.get(search_type.lower(), [tidalapi.Track])`. -/
def modelsOf (ty : String) : SearchModels :=
  match ty.toLower with
  | "track" => .track
  | "album" => .album
  | "artist" => .artist
  | "playlist" => .playlist
  | "all" => .all
  | _ => .track

/-- `q = query_obj.get('query', '') if isinstance(query_obj, dict) else str(query_obj)`. -/
def queryOf : QueryItem → String
  | .str s => s
  | .dict q _ => q.getD ""
  | .other r => r

/-- `search_type = query_obj.get('type', 'track') if isinstance(query_obj, dict) else 'track'`. -/
def typeOf : QueryItem → String
  | .str _ => "track"
  | .dict _ t => t.getD "track"
  | .other _ => "track"

/-- Oracle for `search_session.search(q, models=models, limit=limit_per_query)`
followed by the formatting of its payload: either a formatted response body
(kept opaque) or a raised exception message. -/
abbrev SearchOracle := String → SearchModels → Nat → Except String Nat

/-- One slot of the batch-search `results` array: either a result object
`{"query": q, "type": t, ...payload}` or an error object
`{"query": q, "error": msg}`. -/
inductive BatchItemResult where
  | ok (query : String) (ty : String) (payload : Nat)
  | err (query : String) (msg : String)
  deriving Repr, DecidableEq

/-- Embedding of the inner `search_single(query_obj, search_session)`
(app.py lines 302-345): empty queries short-circuit to an error slot, and
any exception from the search or formatting is caught into an error slot
carrying the query text. -/
def search_single (oracle : SearchOracle) (limit : Nat) (qi : QueryItem) :
    BatchItemResult :=
  let q := queryOf qi
  if q = "" then .err q "Empty query"
  else
    match oracle q (modelsOf (typeOf qi)) limit with
    | .ok payload => .ok q (typeOf qi) payload
    | .error msg => .err q msg

/-- The JSON payload of `POST /api/search/batch` after `request.get_json()`:
`queries` may be absent, `limit_per_query` defaults to 5. -/
structure BatchSearchRequest where
  queries : Option (List QueryItem)
  limit_per_query : Option Int
  deriving Repr, DecidableEq

/-- A response of the batch-search route: HTTP 200 with
`{"results": [...], "total": n}`, or an HTTP error status with a message. -/
inductive BatchSearchResponse where
  | ok (results : List BatchItemResult) (total : Nat)
  | httpError (code : Nat) (msg : String)
  deriving Repr, DecidableEq

/-- `limit_per_query = min(max(1, limit_per_query), 20)` (app.py line 300),
applied to the payload value with its default of 5. -/
def clampLimitPerQuery (l : Option Int) : Nat :=
  (min (max 1 (l.getD 5)) 20).toNat

/-- Embedding of the `batch_search` route body (app.py lines 259-369),
after the auth decorator has supplied a session.  The queries are processed
strictly sequentially in input order, each through `search_single`, and the
per-item `try` of the loop cannot fire beyond what `search_single` already
catches, so every item lands in its own slot. -/
def batch_search (oracle : SearchOracle) (req : Option BatchSearchRequest) :
    BatchSearchResponse :=
  match req with
  | none => .httpError 400 "Missing 'queries' in request body"
  | some r =>
    match r.queries with
    | none => .httpError 400 "Missing 'queries' in request body"
    | some qs =>
      if qs.length = 0 then
        .httpError 400 "'queries' must be a non-empty list"
      else if 100 < qs.length then
        .httpError 400 "Maximum 100 queries per batch"
      else
        let limit := clampLimitPerQuery r.limit_per_query
        let results := qs.map (search_single oracle limit)
        .ok results results.length

/-! ## Batch recommendations (`src/tidal_api/app.py`, lines 396-463)

Each seed track id is handed to a worker (`ThreadPoolExecutor` with one
worker per seed); a worker fetches the seed's track radio and formats it,
and swallows any exception to an empty list.  The main thread consumes the
futures with `as_completed`, so the merge processes the per-seed result
lists in completion order, which is an arbitrary permutation of the seed
order.  The merge appends each track to `all_recommendations` unless
`remove_duplicates` is set and the track id is already in
`seen_track_ids`; the seen-set is updated on every append, also when
`remove_duplicates` is false. -/

/-- A formatted recommendation as produced by
`format_track_data(rec, source_track_id=track_id)`: the recommended track's
id plus the rest of the record (kept opaque, but carrying the seed id so
that occurrences from different seeds are distinguishable). -/
structure TrackData where
  id : Int
  source : Int
  deriving Repr, DecidableEq

/-- Oracle for `session.track(track_id)` followed by
`track.get_track_radio(limit=limit_per_track)` and formatting: either the
formatted list or a raised exception message. -/
abbrev RadioOracle := Int → Nat → Except String (List TrackData)

/-- Embedding of the worker `get_track_recommendations(track_id)`
(app.py lines 420-433): any exception is logged and swallowed to `[]`. -/
def seedResult (oracle : RadioOracle) (limit : Nat) (track_id : Int) :
    List TrackData :=
  match oracle track_id limit with
  | .ok l => l
  | .error _ => []

/-- The body of the inner merge loop (app.py lines 451-459), one recommended
track at a time.  State: `(all_recommendations, seen_track_ids)`. -/
def accumTrack (removeDup : Bool) (st : List TrackData × List Int)
    (t : TrackData) : List TrackData × List Int :=
  if removeDup ∧ t.id ∈ st.2 then st
  else (st.1 ++ [t], t.id :: st.2)

/-- The `as_completed` consumption loop (app.py lines 447-459): fold the
per-seed result lists, in completion order, through `accumTrack`. -/
def accumFutures (removeDup : Bool) (arrivals : List (List TrackData)) :
    List TrackData × List Int :=
  arrivals.foldl (fun st l => l.foldl (accumTrack removeDup) st) ([], [])

/-- The JSON payload of `POST /api/recommendations/batch`. -/
structure BatchRecRequest where
  track_ids : Option (List Int)
  limit_per_track : Option Int
  remove_duplicates : Option Bool
  deriving Repr, DecidableEq

/-- A response of the batch-recommendations route. -/
inductive BatchRecResponse where
  | ok (recommendations : List TrackData)
  | httpError (code : Nat) (msg : String)
  deriving Repr, DecidableEq

/-- `bound_limit` from `src/tidal_api/utils.py` lines 46-53: clamp to
`[1, max_n]` with `max_n = 50` by default. -/
def bound_limit (limit : Int) (max_n : Int := 50) : Int :=
  if limit < 1 then 1
  else if max_n < limit then max_n
  else limit

/-- Embedding of the `get_batch_recommendations` route body (app.py lines
396-463).  `completionOrder` is the order in which `as_completed` yields the
seed futures: a permutation of `track_ids` chosen by the scheduler. -/
def get_batch_recommendations (oracle : RadioOracle)
    (completionOrder : List Int) (req : Option BatchRecRequest) :
    BatchRecResponse :=
  match req with
  | none => .httpError 400 "Missing track_ids in request body"
  | some r =>
    match r.track_ids with
    | none => .httpError 400 "Missing track_ids in request body"
    | some _ =>
      let limit := (bound_limit (r.limit_per_track.getD 20)).toNat
      let removeDup := r.remove_duplicates.getD true
      let arrivals := completionOrder.map (seedResult oracle limit)
      .ok (accumFutures removeDup arrivals).1

/-! ## Playlist listing (`src/tidal_api/app.py`, lines 580-614)

The route formats every playlist into a dict whose `last_updated` key is
`playlist.last_updated if hasattr(playlist, 'last_updated') else None`, then
sorts with `sorted(playlist_list, key=lambda x: x.get('last_updated', ''),
reverse=True)`.  The key is always present, so the `''` default is dead: the
key value is the timestamp or `None`.  CPython's `sorted` precomputes all
keys and compares them with `<`; with two or more elements every element
takes part in at least one comparison, and any comparison that involves a
`None` key (against a timestamp or another `None`) raises `TypeError`, which
the route's `except` turns into an HTTP 500 error response.  With all keys
present, `reverse=True` gives a stable descending order. -/

/-- The fields of one formatted playlist dict that the sort can observe:
`last_updated` is `None` when the client object lacks the attribute. -/
structure PlaylistInfo where
  id : Nat
  lastUpdated : Option Nat
  deriving Repr, DecidableEq

/-- The comparison `key(y) < key(x)` on precomputed sort keys, restricted to
the comparable case: both timestamps present.  (The incomparable case is
routed to the `TypeError` branch before any comparison is evaluated.) -/
def keyLt (a b : PlaylistInfo) : Bool :=
  match a.lastUpdated, b.lastUpdated with
  | some x, some y => x < y
  | _, _ => false

/-- Stable descending insertion: place `x` before the first element whose
key is strictly smaller, so elements with equal keys keep their input
order, as CPython's stable `sorted(..., reverse=True)` does. -/
def insertDesc (x : PlaylistInfo) : List PlaylistInfo → List PlaylistInfo
  | [] => [x]
  | y :: ys => if keyLt y x then x :: y :: ys else y :: insertDesc x ys

/-- Stable descending sort by the `last_updated` key. -/
def sortDesc : List PlaylistInfo → List PlaylistInfo
  | [] => []
  | x :: xs => insertDesc x (sortDesc xs)

/-- Semantics of `sorted(playlist_list, key=lambda x: x.get('last_updated',
''), reverse=True)` under CPython: if at least two elements are present and
any key is `None`, some comparison involves the `None` key and raises
`TypeError` (`'<' not supported between instances`); otherwise the call
returns the stable descending order. -/
def pySortedByLastUpdatedDesc (l : List PlaylistInfo) :
    Except String (List PlaylistInfo) :=
  if 2 ≤ l.length ∧ l.any (fun p => p.lastUpdated.isNone) then
    .error "unorderable types: NoneType and datetime (TypeError)"
  else
    .ok (sortDesc l)

/-- A response of the playlist-listing route. -/
inductive PlaylistsResponse where
  | ok (playlists : List PlaylistInfo)
  | httpError (code : Nat) (msg : String)
  deriving Repr, DecidableEq

/-- Embedding of the `get_user_playlists` route body (app.py lines 580-614).
`fetch` is the oracle for `session.user.playlists()` plus the per-playlist
attribute reads; any exception — including the `TypeError` from the sort —
is caught by the route's `except` and turned into a 500 error response. -/
def get_user_playlists (fetch : Except String (List PlaylistInfo)) :
    PlaylistsResponse :=
  match fetch with
  | .error msg => .httpError 500 ("Error fetching playlists: " ++ msg)
  | .ok infos =>
    match pySortedByLastUpdatedDesc infos with
    | .error msg => .httpError 500 ("Error fetching playlists: " ++ msg)
    | .ok sortedInfos => .ok sortedInfos

/-! ## Process supervisor startup (`src/mcp_server/utils.py`, lines 80-135)

After spawning the child, `start_flask_app` loops while
`time.time() - start_time < FLASK_STARTUP_TIMEOUT` (30 s).  Each iteration
first polls the child (`flask_process.poll()`); if it has exited the
function raises at once with the exit code.  Otherwise it tries a TCP
connect to the loopback port; on success it breaks out and returns.
Otherwise it sleeps 500 ms and iterates.  If the loop ends by timeout the
child is terminated and a timeout error is raised.

We index the iterations by `i = 0, 1, ...`; `ts i` is the elapsed time in
milliseconds at which iteration `i` evaluates the loop condition (the
`time.time() - start_time` value), and `obs i` is what iteration `i` would
observe of the child and the port.  The 500 ms sleep makes `ts` grow by at
least 500 per iteration, which bounds the iteration count; the embedding
carries fuel and the theorem shows the fuel is never exhausted. -/

/-- What one polling iteration observes: `exitCode = some c` when
`flask_process.poll()` reports the child exited with code `c`, and whether
`connect_ex` on the loopback port returned 0. -/
structure PollObs where
  exitCode : Option Int
  portOpen : Bool
  deriving Repr, DecidableEq

/-- `FLASK_STARTUP_TIMEOUT = 30` seconds, in milliseconds. -/
def FLASK_STARTUP_TIMEOUT_MS : Int := 30000

/-- The three ways `start_flask_app` can finish: return normally once the
port opened; raise `RuntimeError` with the child's exit code; or, after the
timeout, terminate the child and raise the timeout `RuntimeError`. -/
inductive StartOutcome where
  | success
  | childExited (code : Int)
  | timeoutExpired
  deriving Repr, DecidableEq

/-- The polling loop of `start_flask_app` (utils.py lines 107-133), from
iteration `i` with the given fuel.  `none` marks fuel exhaustion, which the
timing hypotheses rule out. -/
def startLoop (obs : Nat → PollObs) (ts : Nat → Int) :
    Nat → Nat → Option StartOutcome
  | 0, _ => none
  | fuel + 1, i =>
    if FLASK_STARTUP_TIMEOUT_MS ≤ ts i then some .timeoutExpired
    else
      match (obs i).exitCode with
      | some c => some (.childExited c)
      | none =>
        if (obs i).portOpen then some .success
        else startLoop obs ts fuel (i + 1)

/-- Embedding of the startup wait of `start_flask_app` (utils.py lines
104-135), after the child has been spawned.  61 units of fuel cover every
schedule in which consecutive condition checks are at least the 500 ms
sleep apart. -/
def start_flask_app (obs : Nat → PollObs) (ts : Nat → Int) :
    Option StartOutcome :=
  startLoop obs ts 61 0

/-! ## Process supervisor shutdown (`src/mcp_server/utils.py`, lines 137-151)

`shutdown_flask_app` keeps the module-level `flask_process` as is (it is
never reset to `None`), so idempotence rests on `Popen` semantics:
`terminate()` is `send_signal(SIGTERM)`, which first calls `poll()` and
sends nothing when the exit status has already been reaped.  We model the
`Popen` object plus the OS process it tracks; `respondsToTerm` says whether
the child exits within the 5 s grace period after SIGTERM (SIGKILL always
kills). -/

/-- A termination signal sent to the child. -/
inductive Sig where
  | term
  | kill
  deriving Repr, DecidableEq

/-- A `Popen` handle and the OS process behind it: whether the process is
still running, and whether the handle has reaped its exit status
(`returncode is not None`). -/
structure Proc where
  alive : Bool
  reaped : Bool
  deriving Repr, DecidableEq

/-- `Popen.poll()`: reap the exit status if the process has exited. -/
def pollProc (p : Proc) : Proc :=
  if p.alive then p else { p with reaped := true }

/-- `Popen.send_signal(sig)`: `poll()` first, then send only if the exit
status is still unknown.  Returns the new handle state and the signal sent,
if any.  SIGKILL ends the process; SIGTERM ends it only if the child
handles it (`respondsToTerm`). -/
def send_signal (respondsToTerm : Bool) (p : Proc) (sig : Sig) :
    Proc × Option Sig :=
  let p := pollProc p
  if p.reaped then (p, none)
  else
    let dies := match sig with
      | .kill => true
      | .term => respondsToTerm
    ({ p with alive := p.alive && !dies }, some sig)

/-- One call to `shutdown_flask_app` (utils.py lines 137-151) on the global
`flask_process`.  Returns the new global state and the signals this call
sent: `terminate()`, then `wait(timeout=5)`, and `kill()` only if the wait
timed out.  The wait reaps the exit status when the process ends within the
grace period; its `TimeoutExpired` is caught, so the call never raises. -/
def shutdown_flask_app (respondsToTerm : Bool) (fp : Option Proc) :
    Option Proc × List Sig :=
  match fp with
  | none => (none, [])
  | some p =>
    let (p, sig1) := send_signal respondsToTerm p .term
    if p.alive then
      let (p, sig2) := send_signal respondsToTerm p .kill
      (some p, sig1.toList ++ sig2.toList)
    else
      let p := { p with reaped := true }
      (some p, sig1.toList)

/-! ## Tool-side batch-search normalisation (`src/mcp_server/server.py`,
lines 241-329)

`batch_search_tidal` validates the outer list, normalises each item (a
plain string keeps its text with type `track`; a dict is kept only when
`q.get("query")` is truthy, i.e. present and non-empty; anything else is
dropped silently), rejects an empty normalised list, and otherwise posts
the normalised queries with the clamped `limit_per_query` to
`POST /api/search/batch` on the backend. -/

/-- A normalised query as sent to the backend:
`{"query": ..., "type": ...}`. -/
structure NormQuery where
  query : String
  ty : String
  deriving Repr, DecidableEq

/-- One item of the tool call's `queries` argument: a JSON string, a JSON
object (with optional `query` and `type` keys), or any other JSON value. -/
inductive ToolQueryItem where
  | str (s : String)
  | dict (query : Option String) (ty : Option String)
  | other
  deriving Repr, DecidableEq

/-- The normalisation of one item (server.py lines 293-300): `none` means
the item is dropped with no per-item error slot. -/
def normalizeItem : ToolQueryItem → Option NormQuery
  | .str s => some ⟨s, "track"⟩
  | .dict q t =>
    match q with
    | some qs => if qs = "" then none else some ⟨qs, t.getD "track"⟩
    | none => none
  | .other => none

/-- A result of the `batch_search_tidal` tool: the `{"status": "error",
"message": ...}` dict, or `{"status": "success", "results": ..., "total":
...}` built from the backend's 200 response. -/
inductive ToolResponse where
  | success (results : List BatchItemResult) (total : Nat)
  | error (message : String)
  deriving Repr, DecidableEq

/-- Converting a `NormQuery` into the JSON the backend route sees: a dict
with both keys present. -/
def toBackendItem (nq : NormQuery) : QueryItem :=
  .dict (some nq.query) (some nq.ty)

/-- Embedding of `batch_search_tidal` (server.py lines 241-329) composed
with the backend `batch_search` route it posts to, with the remote search
as oracle.  Transport failures are out of scope here: the HTTP round trip
itself is the function call. -/
def batch_search_tidal (oracle : SearchOracle) (queries : List ToolQueryItem)
    (limit_per_query : Int := 5) : ToolResponse :=
  if queries.length = 0 then .error "queries must be a non-empty list"
  else if 100 < queries.length then
    .error "Maximum 100 queries per batch request"
  else
    let normalized := queries.filterMap normalizeItem
    if normalized.length = 0 then .error "No valid queries provided"
    else
      let req : BatchSearchRequest :=
        { queries := some (normalized.map toBackendItem)
          limit_per_query := some (min (max 1 limit_per_query) 20) }
      match batch_search oracle (some req) with
      | .ok results total => .success results total
      | .httpError _ msg => .error msg

/-! # Theorems -/

/-! ## C1, C4, C7 — session cache -/

/-- C1: for every `get_or_create_session` call at time `now`: if a session is
cached and `now - last_validated_at < TTL` (300 s), that cached session is
returned verbatim, with the state untouched and neither the credential file
nor the validation hook consulted; if no session is cached or the TTL has
elapsed, the credential file is consulted before anything is returned, the
validation hook runs whenever the file exists, and on validation success the
cache entry and the timestamp are replaced together with the returned
session. -/
theorem get_or_create_session_ttl (env : SessionEnv) (st : SessionCacheState)
    (now : Int) :
    (∀ s, st.cachedSession = some s →
      now - st.lastValidated < SESSION_CACHE_TTL →
      get_or_create_session env st now =
        { ret := some s, state := st, trace := ⟨0, 0⟩ }) ∧
    ((st.cachedSession = none ∨ SESSION_CACHE_TTL ≤ now - st.lastValidated) →
      (get_or_create_session env st now).trace.fileChecks = 1 ∧
      (env.fileExists = true →
        (get_or_create_session env st now).trace.validateCalls = 1) ∧
      (∀ s, env.fileExists = true → env.validate = .ok s →
        get_or_create_session env st now =
          { ret := some s
            state := { cachedSession := some s, lastValidated := now }
            trace := ⟨1, 1⟩ })) := by
  constructor
  · intro s hs hlt
    simp [get_or_create_session, hs, hlt]
  · intro hmiss
    have hcond : ¬ (st.cachedSession.isSome ∧
        now - st.lastValidated < SESSION_CACHE_TTL) := by
      rcases hmiss with h | h
      · simp [h]
      · intro hc
        omega
    refine ⟨?_, ?_, ?_⟩
    · by_cases hf : env.fileExists <;>
        cases hv : env.validate <;>
        simp [get_or_create_session, hcond, hf, hv]
    · intro hf
      cases hv : env.validate <;>
        simp [get_or_create_session, hcond, hf, hv]
    · intro s hf hv
      simp [get_or_create_session, hcond, hf, hv]

/-- C1 witness: with a session cached at time 100, a call at 200 is a cache
hit returning the cached session with no file access, and a call at 450 is a
revalidation that replaces the entry and timestamp together. -/
theorem get_or_create_session_ttl_witness :
    get_or_create_session ⟨true, .ok 7⟩ ⟨some 3, 100⟩ 200 =
      { ret := some 3, state := ⟨some 3, 100⟩, trace := ⟨0, 0⟩ } ∧
    get_or_create_session ⟨true, .ok 7⟩ ⟨some 3, 100⟩ 450 =
      { ret := some 7, state := ⟨some 7, 450⟩, trace := ⟨1, 1⟩ } :=
  ⟨(get_or_create_session_ttl ⟨true, .ok 7⟩ ⟨some 3, 100⟩ 200).1 3 rfl
      (by decide),
    ((get_or_create_session_ttl ⟨true, .ok 7⟩ ⟨some 3, 100⟩ 450).2
      (Or.inr (by decide))).2.2 7 rfl rfl⟩

/-- C4: on the revalidation path (no cached session or TTL elapsed), a
missing credential file, a validation attempt that returns falsy (parse
failure included) or one that raises (the exception is caught inside the
function, which is total here, so nothing propagates to the caller) all end
with the cache entry cleared and `None` returned. -/
theorem get_or_create_session_never_raises (env : SessionEnv)
    (st : SessionCacheState) (now : Int)
    (hmiss : st.cachedSession = none ∨
      SESSION_CACHE_TTL ≤ now - st.lastValidated)
    (hfail : env.fileExists = false ∨ env.validate = .failed ∨
      ∃ m, env.validate = .raised m) :
    (get_or_create_session env st now).ret = none ∧
    (get_or_create_session env st now).state.cachedSession = none := by
  have hcond : ¬ (st.cachedSession.isSome ∧
      now - st.lastValidated < SESSION_CACHE_TTL) := by
    rcases hmiss with h | h
    · simp [h]
    · intro hc
      omega
  rcases hfail with hf | hv | ⟨m, hv⟩
  · simp [get_or_create_session, hcond, hf]
  · by_cases hf : env.fileExists <;>
      simp [get_or_create_session, hcond, hf, hv]
  · by_cases hf : env.fileExists <;>
      simp [get_or_create_session, hcond, hf, hv]

/-- C4 witness: with an empty cache, a present credential file and a raising
validation attempt, the call returns no session and leaves the cache entry
cleared. -/
theorem get_or_create_session_never_raises_witness :
    (get_or_create_session ⟨true, .raised "boom"⟩ ⟨none, 0⟩ 10).ret = none ∧
    (get_or_create_session ⟨true, .raised "boom"⟩
        ⟨none, 0⟩ 10).state.cachedSession = none :=
  get_or_create_session_never_raises ⟨true, .raised "boom"⟩ ⟨none, 0⟩ 10
    (Or.inl rfl) (Or.inr (Or.inr ⟨"boom", rfl⟩))

/-- C7: `invalidate_session_cache` clears the cache entry and resets the
timestamp in one critical section, and the immediately following
`get_or_create_session` — at any time `now`, even less than the TTL after
the previous successful validation — consults the credential file (one file
check, not a cache hit) and runs the validation hook whenever the file
exists. -/
theorem invalidate_session_cache_forces_revalidation (env : SessionEnv)
    (st : SessionCacheState) (now : Int) :
    invalidate_session_cache st = ⟨none, 0⟩ ∧
    (get_or_create_session env (invalidate_session_cache st)
        now).trace.fileChecks = 1 ∧
    (env.fileExists = true →
      (get_or_create_session env (invalidate_session_cache st)
          now).trace.validateCalls = 1) := by
  refine ⟨rfl, ?_, ?_⟩
  · by_cases hf : env.fileExists <;>
      cases hv : env.validate <;>
      simp [get_or_create_session, invalidate_session_cache, hf, hv]
  · intro hf
    cases hv : env.validate <;>
      simp [get_or_create_session, invalidate_session_cache, hf, hv]

/-- C7 witness: a session validated at time 250 is invalidated and the very
next call, at time 260 (well within the TTL), consults the file and runs the
validation hook instead of hitting the cache. -/
theorem invalidate_session_cache_forces_revalidation_witness :
    invalidate_session_cache ⟨some 3, 250⟩ = ⟨none, 0⟩ ∧
    (get_or_create_session ⟨true, .ok 7⟩ (invalidate_session_cache
        ⟨some 3, 250⟩) 260).trace.fileChecks = 1 ∧
    (true = true → (get_or_create_session ⟨true, .ok 7⟩
        (invalidate_session_cache ⟨some 3, 250⟩)
        260).trace.validateCalls = 1) :=
  invalidate_session_cache_forces_revalidation ⟨true, .ok 7⟩ ⟨some 3, 250⟩ 260

/-! ## C3, C5 — batch search -/

/-- C3: for every batch-search request whose ordered `queries` list has
`N` items with `1 ≤ N ≤ 100`, the response carries exactly `N` result
slots, and the slot at position `i` is `search_single` applied to the query
at input position `i` — the processing is sequential in input order, so no
completion-order effect can reorder it. -/
theorem batch_search_preserves_order (oracle : SearchOracle)
    (req : BatchSearchRequest) (qs : List QueryItem)
    (hq : req.queries = some qs) (h1 : 1 ≤ qs.length)
    (h2 : qs.length ≤ 100) :
    batch_search oracle (some req) =
      .ok (qs.map (search_single oracle (clampLimitPerQuery
        req.limit_per_query))) qs.length ∧
    (qs.map (search_single oracle (clampLimitPerQuery
        req.limit_per_query))).length = qs.length ∧
    ∀ i, (qs.map (search_single oracle (clampLimitPerQuery
        req.limit_per_query))).get? i =
      (qs.get? i).map (search_single oracle (clampLimitPerQuery
        req.limit_per_query)) := by
  have hne : ¬ qs.length = 0 := by omega
  have hle : ¬ 100 < qs.length := by omega
  refine ⟨?_, by simp, fun i => by simp⟩
  simp [batch_search, hq, hne, hle]

/-- C3 witness: a three-query batch returns three slots in input order. -/
theorem batch_search_preserves_order_witness :
    batch_search (fun q _ _ => .ok q.length)
      (some ⟨some [.str "a", .str "bb", .str "ccc"], none⟩) =
      .ok ([.str "a", .str "bb", .str "ccc"].map
        (search_single (fun q _ _ => .ok q.length)
          (clampLimitPerQuery none))) 3 ∧
    ([.str "a", .str "bb", .str "ccc"].map
      (search_single (fun q _ _ => .ok q.length)
        (clampLimitPerQuery none))).length = 3 ∧
    ∀ i, ([.str "a", .str "bb", .str "ccc"].map
        (search_single (fun q _ _ => .ok q.length)
          (clampLimitPerQuery none))).get? i =
      (([.str "a", .str "bb", .str "ccc"] : List QueryItem).get? i).map
        (search_single (fun q _ _ => .ok q.length)
          (clampLimitPerQuery none)) :=
  batch_search_preserves_order (fun q _ _ => .ok q.length)
    ⟨some [.str "a", .str "bb", .str "ccc"], none⟩
    [.str "a", .str "bb", .str "ccc"] rfl (by decide) (by decide)

/-- C5: if processing the query at position `i` of a batch produces an error
slot (an object carrying the query text and an error message), the batch
still returns one slot per input item: slot `i` is that error object and
every slot `j` is exactly `search_single` of query `j`, so no single item
failure aborts the batch or disturbs the other items. -/
theorem batch_search_isolates_failures (oracle : SearchOracle)
    (req : BatchSearchRequest) (qs : List QueryItem) (i : Nat)
    (hq : req.queries = some qs) (h1 : 1 ≤ qs.length)
    (h2 : qs.length ≤ 100) (hi : i < qs.length) (q msg : String)
    (hfail : search_single oracle (clampLimitPerQuery req.limit_per_query)
      (qs.get ⟨i, hi⟩) = .err q msg) :
    batch_search oracle (some req) =
      .ok (qs.map (search_single oracle (clampLimitPerQuery
        req.limit_per_query))) qs.length ∧
    (qs.map (search_single oracle (clampLimitPerQuery
        req.limit_per_query))).get? i = some (.err q msg) ∧
    ∀ j, (qs.map (search_single oracle (clampLimitPerQuery
        req.limit_per_query))).get? j =
      (qs.get? j).map (search_single oracle (clampLimitPerQuery
        req.limit_per_query)) := by
  refine ⟨(batch_search_preserves_order oracle req qs hq h1 h2).1, ?_,
    fun j => by simp⟩
  have hget : qs.get? i = some (qs.get ⟨i, hi⟩) := List.get?_eq_get hi
  simp only [List.get?_map, hget]
  simpa using hfail

/-- C5 witness: in a three-item batch whose middle query makes the search
raise, the middle slot is the error object and the outer slots are the
normal results. -/
theorem batch_search_isolates_failures_witness :
    batch_search (fun q _ _ => if q = "bb" then .error "boom" else .ok 1)
      (some ⟨some [.str "a", .str "bb", .str "c"], none⟩) =
      .ok ([.str "a", .str "bb", .str "c"].map
        (search_single (fun q _ _ => if q = "bb" then .error "boom"
          else .ok 1) (clampLimitPerQuery none))) 3 ∧
    ([.str "a", .str "bb", .str "c"].map
      (search_single (fun q _ _ => if q = "bb" then .error "boom"
        else .ok 1) (clampLimitPerQuery none))).get? 1 =
      some (.err "bb" "boom") ∧
    ∀ j, ([.str "a", .str "bb", .str "c"].map
        (search_single (fun q _ _ => if q = "bb" then .error "boom"
          else .ok 1) (clampLimitPerQuery none))).get? j =
      (([.str "a", .str "bb", .str "c"] : List QueryItem).get? j).map
        (search_single (fun q _ _ => if q = "bb" then .error "boom"
          else .ok 1) (clampLimitPerQuery none)) :=
  batch_search_isolates_failures
    (fun q _ _ => if q = "bb" then .error "boom" else .ok 1)
    ⟨some [.str "a", .str "bb", .str "c"], none⟩
    [.str "a", .str "bb", .str "c"] 1 rfl (by decide) (by decide)
    (by decide) "bb" "boom" (by decide)

/-! ## C6 — batch recommendation dedup -/

/-- The per-seed result lists in completion order, as the merge loop sees
them: each seed of `order` through the worker with the bounded limit. -/
def arrivalsOf (oracle : RadioOracle) (req : BatchRecRequest)
    (order : List Int) : List (List TrackData) :=
  order.map (seedResult oracle (bound_limit (req.limit_per_track.getD 20)).toNat)

theorem accumTrack_false_eq (st : List TrackData × List Int) (t : TrackData) :
    accumTrack false st t = (st.1 ++ [t], t.id :: st.2) := by
  simp [accumTrack]

theorem foldl_accumTrack_false (l : List TrackData) :
    ∀ acc seen, (l.foldl (accumTrack false) (acc, seen)).1 = acc ++ l := by
  induction l with
  | nil => intro acc seen; simp
  | cons t rest ih =>
    intro acc seen
    rw [List.foldl_cons, accumTrack_false_eq]
    rw [ih (acc ++ [t]) (t.id :: seen)]
    simp

theorem foldl_accumTrack_true_of_seen (tid : Int) (l : List TrackData) :
    ∀ acc seen, tid ∈ seen →
      ((l.foldl (accumTrack true) (acc, seen)).1.filter
        (fun t => t.id == tid)) = acc.filter (fun t => t.id == tid) := by
  induction l with
  | nil => intro acc seen _; simp
  | cons t rest ih =>
    intro acc seen h
    by_cases hmem : t.id ∈ seen
    · have hstep : accumTrack true (acc, seen) t = (acc, seen) := by
        simp [accumTrack, hmem]
      rw [List.foldl_cons, hstep]
      exact ih acc seen h
    · have hstep : accumTrack true (acc, seen) t =
          (acc ++ [t], t.id :: seen) := by
        simp [accumTrack, hmem]
      have htid : ¬ t.id = tid := fun he => hmem (he ▸ h)
      rw [List.foldl_cons, hstep]
      rw [ih (acc ++ [t]) (t.id :: seen) (List.mem_cons_of_mem _ h)]
      simp [List.filter_append, htid]

theorem foldl_accumTrack_true_of_unseen (tid : Int) (l : List TrackData) :
    ∀ acc seen, tid ∉ seen →
      ((l.foldl (accumTrack true) (acc, seen)).1.filter
        (fun t => t.id == tid)) =
      acc.filter (fun t => t.id == tid) ++
        (l.find? (fun t => t.id == tid)).toList := by
  induction l with
  | nil => intro acc seen _; simp
  | cons t rest ih =>
    intro acc seen h
    by_cases hid : t.id = tid
    · have hmem : t.id ∉ seen := by rw [hid]; exact h
      have hstep : accumTrack true (acc, seen) t =
          (acc ++ [t], t.id :: seen) := by
        simp [accumTrack, hmem]
      rw [List.foldl_cons, hstep]
      rw [foldl_accumTrack_true_of_seen tid rest (acc ++ [t]) (t.id :: seen)
        (by simp [hid])]
      rw [List.find?_cons_of_pos _ (by simp [hid])]
      simp [List.filter_append, hid]
    · have hfind : (t :: rest).find? (fun t => t.id == tid) =
          rest.find? (fun t => t.id == tid) :=
        List.find?_cons_of_neg _ (by simp [hid])
      by_cases hmem : t.id ∈ seen
      · have hstep : accumTrack true (acc, seen) t = (acc, seen) := by
          simp [accumTrack, hmem]
        rw [List.foldl_cons, hstep, ih acc seen h, hfind]
      · have hstep : accumTrack true (acc, seen) t =
            (acc ++ [t], t.id :: seen) := by
          simp [accumTrack, hmem]
        have h2 : tid ∉ t.id :: seen := by
          simp only [List.mem_cons]
          rintro (he | he)
          · exact hid he.symm
          · exact h he
        rw [List.foldl_cons, hstep, ih (acc ++ [t]) (t.id :: seen) h2, hfind]
        simp [List.filter_append, hid]

theorem accumFutures_eq_foldl_join (rd : Bool)
    (arrivals : List (List TrackData)) :
    accumFutures rd arrivals =
      (arrivals.join).foldl (accumTrack rd) ([], []) := by
  rw [accumFutures, List.foldl_join]

theorem filter_id_eq_nil_of_not_mem (tid : Int) (l : List TrackData)
    (h : tid ∉ l.map TrackData.id) :
    l.filter (fun t => t.id == tid) = [] := by
  induction l with
  | nil => rfl
  | cons t rest ih =>
    simp only [List.map_cons, List.mem_cons] at h
    push_neg at h
    rw [List.filter_cons_of_neg (by simp; exact fun he => h.1 he.symm)]
    exact ih h.2

theorem filter_id_length_of_nodup (tid : Int) (l : List TrackData)
    (h : (l.map TrackData.id).Nodup) :
    (l.filter (fun t => t.id == tid)).length =
      if l.any (fun t => t.id == tid) then 1 else 0 := by
  induction l with
  | nil => simp
  | cons t rest ih =>
    simp only [List.map_cons, List.nodup_cons] at h
    obtain ⟨hnotin, hnd⟩ := h
    by_cases hid : t.id = tid
    · have hnil : rest.filter (fun t => t.id == tid) = [] :=
        filter_id_eq_nil_of_not_mem tid rest (hid ▸ hnotin)
      rw [List.filter_cons_of_pos (by simp [hid])]
      simp [hnil, List.any_cons, hid]
    · rw [List.filter_cons_of_neg (by simp [hid])]
      rw [ih hnd]
      simp [List.any_cons, hid]

theorem filter_join_length_eq_countP (tid : Int) (ls : List (List TrackData))
    (h : ∀ l ∈ ls, (l.map TrackData.id).Nodup) :
    ((ls.join).filter (fun t => t.id == tid)).length =
      ls.countP (fun l => l.any (fun t => t.id == tid)) := by
  induction ls with
  | nil => simp
  | cons l rest ih =>
    simp only [List.join_cons, List.filter_append, List.length_append]
    rw [filter_id_length_of_nodup tid l (h l (List.mem_cons_self l rest))]
    rw [ih (fun x hx => h x (List.mem_cons_of_mem l hx))]
    rw [List.countP_cons]
    by_cases ha : l.any (fun t => t.id == tid) <;> simp [ha] <;> omega

/-- C6: in a batch-recommendations call whose seed futures complete in the
order `order` (any permutation of the requested `track_ids`), the returned
list is the lock-protected accumulator over the per-seed results in
completion order; with `remove_duplicates` true (the default), any track id
occurring anywhere in the per-seed results appears in the output exactly as
its first-accumulated occurrence — once — and with `remove_duplicates`
false, a track id appears once per seed that produced it (per-seed radio
lists listing each id at most once). -/
theorem get_batch_recommendations_dedup (oracle : RadioOracle)
    (req : BatchRecRequest) (tids order : List Int) (tid : Int)
    (htids : req.track_ids = some tids) (hperm : order.Perm tids) :
    get_batch_recommendations oracle order (some req) =
      .ok (accumFutures (req.remove_duplicates.getD true)
        (arrivalsOf oracle req order)).1 ∧
    (req.remove_duplicates.getD true = true →
      ((accumFutures true (arrivalsOf oracle req order)).1.filter
          (fun t => t.id == tid)) =
        (((arrivalsOf oracle req order).join).find?
          (fun t => t.id == tid)).toList) ∧
    (req.remove_duplicates.getD true = false →
      (∀ l ∈ arrivalsOf oracle req order, (l.map TrackData.id).Nodup) →
      ((accumFutures false (arrivalsOf oracle req order)).1.filter
          (fun t => t.id == tid)).length =
        (arrivalsOf oracle req order).countP
          (fun l => l.any (fun t => t.id == tid))) := by
  refine ⟨?_, ?_, ?_⟩
  · simp [get_batch_recommendations, htids, arrivalsOf]
  · intro _
    rw [accumFutures_eq_foldl_join]
    rw [foldl_accumTrack_true_of_unseen tid _ [] [] (by simp)]
    simp
  · intro _ hnd
    rw [accumFutures_eq_foldl_join]
    have hjoin : (((arrivalsOf oracle req order).join).foldl
        (accumTrack false) ([], [])).1 = (arrivalsOf oracle req order).join := by
      rw [foldl_accumTrack_false]
      simp
    rw [hjoin]
    exact filter_join_length_eq_countP tid _ hnd

/-- C6 witness: two seeds whose radios share track id 10, completing in the
order seed 2 then seed 1: with the dedup default the shared id keeps only
its first-accumulated occurrence (the one from seed 2), and with
`remove_duplicates` false it appears once per seed. -/
theorem get_batch_recommendations_dedup_witness :
    get_batch_recommendations
        (fun seed _ => if seed = 1 then .ok [⟨10, 1⟩, ⟨11, 1⟩]
          else .ok [⟨10, 2⟩, ⟨12, 2⟩]) [2, 1]
        (some ⟨some [1, 2], none, none⟩) =
      .ok (accumFutures ((none : Option Bool).getD true)
        (arrivalsOf (fun seed _ => if seed = 1 then .ok [⟨10, 1⟩, ⟨11, 1⟩]
          else .ok [⟨10, 2⟩, ⟨12, 2⟩]) ⟨some [1, 2], none, none⟩
          [2, 1])).1 ∧
    ((none : Option Bool).getD true = true →
      ((accumFutures true (arrivalsOf
          (fun seed _ => if seed = 1 then .ok [⟨10, 1⟩, ⟨11, 1⟩]
            else .ok [⟨10, 2⟩, ⟨12, 2⟩]) ⟨some [1, 2], none, none⟩
          [2, 1])).1.filter (fun t => t.id == 10)) =
        (((arrivalsOf (fun seed _ => if seed = 1 then .ok [⟨10, 1⟩, ⟨11, 1⟩]
            else .ok [⟨10, 2⟩, ⟨12, 2⟩]) ⟨some [1, 2], none, none⟩
          [2, 1]).join).find? (fun t => t.id == 10)).toList) ∧
    ((none : Option Bool).getD true = false →
      (∀ l ∈ arrivalsOf (fun seed _ => if seed = 1 then .ok [⟨10, 1⟩, ⟨11, 1⟩]
          else .ok [⟨10, 2⟩, ⟨12, 2⟩]) ⟨some [1, 2], none, none⟩ [2, 1],
        (l.map TrackData.id).Nodup) →
      ((accumFutures false (arrivalsOf
          (fun seed _ => if seed = 1 then .ok [⟨10, 1⟩, ⟨11, 1⟩]
            else .ok [⟨10, 2⟩, ⟨12, 2⟩]) ⟨some [1, 2], none, none⟩
          [2, 1])).1.filter (fun t => t.id == 10)).length =
        (arrivalsOf (fun seed _ => if seed = 1 then .ok [⟨10, 1⟩, ⟨11, 1⟩]
            else .ok [⟨10, 2⟩, ⟨12, 2⟩]) ⟨some [1, 2], none, none⟩
          [2, 1]).countP (fun l => l.any (fun t => t.id == 10))) :=
  get_batch_recommendations_dedup
    (fun seed _ => if seed = 1 then .ok [⟨10, 1⟩, ⟨11, 1⟩]
      else .ok [⟨10, 2⟩, ⟨12, 2⟩])
    ⟨some [1, 2], none, none⟩ [1, 2] [2, 1] 10 rfl (by decide)

/-! ## C9 — playlist listing sort order -/

/-- Descending order on the optional `last_updated` keys: whenever both
timestamps are present, the later one comes first.  (Vacuously true when a
key is absent, the case in which the code cannot reach a comparison and
still succeed beyond singleton lists.) -/
def laterFirst (a b : PlaylistInfo) : Prop :=
  ∀ x y, a.lastUpdated = some x → b.lastUpdated = some y → y ≤ x

theorem mem_insertDesc (z x : PlaylistInfo) (ys : List PlaylistInfo) :
    z ∈ insertDesc x ys → z = x ∨ z ∈ ys := by
  induction ys with
  | nil => intro h; simpa [insertDesc] using h
  | cons y ys ih =>
    intro h
    rw [insertDesc] at h
    by_cases hk : keyLt y x
    · rw [if_pos hk] at h
      rcases List.mem_cons.mp h with h | h
      · exact Or.inl h
      · exact Or.inr h
    · rw [if_neg hk] at h
      rcases List.mem_cons.mp h with h | h
      · exact Or.inr (List.mem_cons.mpr (Or.inl h))
      · rcases ih h with h | h
        · exact Or.inl h
        · exact Or.inr (List.mem_cons.mpr (Or.inr h))

theorem insertDesc_pairwise (x : PlaylistInfo) (ys : List PlaylistInfo)
    (hx : x.lastUpdated.isSome) (hys : ∀ p ∈ ys, p.lastUpdated.isSome)
    (hp : List.Pairwise laterFirst ys) :
    List.Pairwise laterFirst (insertDesc x ys) := by
  induction ys with
  | nil => simpa [insertDesc] using List.pairwise_singleton laterFirst x
  | cons y ys ih =>
    obtain ⟨xv, hxv⟩ := Option.isSome_iff_exists.mp hx
    obtain ⟨yv, hyv⟩ :=
      Option.isSome_iff_exists.mp (hys y (List.mem_cons_self y ys))
    rw [List.pairwise_cons] at hp
    obtain ⟨hyall, hpys⟩ := hp
    rw [insertDesc]
    by_cases hk : keyLt y x
    · rw [if_pos hk]
      have hyx : yv < xv := by
        have := hk
        rw [keyLt, hyv, hxv] at this
        exact_mod_cast by simpa using this
      refine List.pairwise_cons.mpr ⟨?_, List.pairwise_cons.mpr ⟨hyall, hpys⟩⟩
      intro z hz
      rcases List.mem_cons.mp hz with hz | hz
      · subst hz
        intro a b ha hb
        rw [hxv] at ha
        rw [hyv] at hb
        cases ha
        cases hb
        omega
      · intro a b ha hb
        have hzy := hyall z hz yv b hyv hb
        rw [hxv] at ha
        cases ha
        omega
    · rw [if_neg hk]
      have hxy : xv ≤ yv := by
        rw [keyLt, hyv, hxv] at hk
        simp at hk
        exact_mod_cast hk
      refine List.pairwise_cons.mpr ⟨?_, ih (fun p hp => hys p
        (List.mem_cons_of_mem y hp)) hpys⟩
      intro z hz
      rcases mem_insertDesc z x ys hz with hz | hz
      · subst hz
        intro a b ha hb
        rw [hyv] at ha
        rw [hxv] at hb
        cases ha
        cases hb
        omega
      · exact hyall z hz

theorem mem_sortDesc (z : PlaylistInfo) (l : List PlaylistInfo) :
    z ∈ sortDesc l → z ∈ l := by
  induction l with
  | nil => intro h; simpa [sortDesc] using h
  | cons x xs ih =>
    intro h
    rw [sortDesc] at h
    rcases mem_insertDesc z x (sortDesc xs) h with h | h
    · exact List.mem_cons.mpr (Or.inl h)
    · exact List.mem_cons.mpr (Or.inr (ih h))

theorem sortDesc_pairwise (l : List PlaylistInfo)
    (h : ∀ p ∈ l, p.lastUpdated.isSome) :
    List.Pairwise laterFirst (sortDesc l) := by
  induction l with
  | nil => simp [sortDesc]
  | cons x xs ih =>
    rw [sortDesc]
    exact insertDesc_pairwise x (sortDesc xs)
      (h x (List.mem_cons_self x xs))
      (fun p hp => h p (List.mem_cons_of_mem x (mem_sortDesc p xs hp)))
      (ih (fun p hp => h p (List.mem_cons_of_mem x hp)))

/-- C9 counterexample: a fetch of two playlists, one of which lacks a
`last_updated` value, does not yield any (sorted) playlist sequence at all:
the comparison of `None` with a timestamp raises inside `sorted`, and the
route answers with an HTTP 500 error response instead. -/
theorem get_user_playlists_missing_value_fails :
    get_user_playlists (.ok [⟨1, some 5⟩, ⟨2, none⟩]) =
      .httpError 500 ("Error fetching playlists: " ++
        "unorderable types: NoneType and datetime (TypeError)") := by
  decide

/-- C9 (amended): every successful list-playlists response is sorted by
`last_updated` descending; but when two or more playlists are fetched and
any of them lacks a `last_updated` value, the request fails with an error
response (Python cannot order `None` against a timestamp), so a successful
response containing a playlist without the value only ever occurs for lists
of length at most one, where the order is trivial. -/
theorem get_user_playlists_sorted (fetch : Except String (List PlaylistInfo))
    (rs : List PlaylistInfo) (h : get_user_playlists fetch = .ok rs) :
    List.Pairwise laterFirst rs := by
  match fetch with
  | .error msg => simp [get_user_playlists] at h
  | .ok infos =>
    rw [get_user_playlists] at h
    by_cases hc : 2 ≤ infos.length ∧ infos.any (fun p => p.lastUpdated.isNone)
    · rw [pySortedByLastUpdatedDesc, if_pos hc] at h
      simp at h
    · rw [pySortedByLastUpdatedDesc, if_neg hc] at h
      simp only [PlaylistsResponse.ok.injEq] at h
      subst h
      push_neg at hc
      by_cases hlen : 2 ≤ infos.length
      · have hall : infos.any (fun p => p.lastUpdated.isNone) = false := by
          have := hc hlen
          simpa using this
        refine sortDesc_pairwise infos ?_
        intro p hp
        have := List.any_eq_false.mp hall p hp
        simpa [Option.isNone_iff_eq_none, Option.isSome_iff_ne_none] using this
      · match infos, hlen with
        | [], _ => simp [sortDesc]
        | [x], _ => simp [sortDesc, insertDesc]
        | x :: y :: t, hlen => exact absurd (by simp) hlen

/-- C9 witness: a successful two-playlist response comes back ordered with
the more recently updated playlist first. -/
theorem get_user_playlists_sorted_witness :
    List.Pairwise laterFirst [(⟨2, some 9⟩ : PlaylistInfo), ⟨1, some 5⟩] :=
  get_user_playlists_sorted (.ok [⟨1, some 5⟩, ⟨2, some 9⟩])
    [⟨2, some 9⟩, ⟨1, some 5⟩] (by decide)

/-! ## C2 — supervisor startup -/

/-- A polling schedule in which consecutive loop-condition checks are at
least the 500 ms sleep apart. -/
def SleepSpaced (ts : Nat → Int) : Prop :=
  0 ≤ ts 0 ∧ ∀ i, ts i + 500 ≤ ts (i + 1)

theorem startLoop_succ_eq (obs : Nat → PollObs) (ts : Nat → Int)
    (fuel i : Nat) :
    startLoop obs ts (fuel + 1) i =
      if FLASK_STARTUP_TIMEOUT_MS ≤ ts i then some .timeoutExpired
      else
        match (obs i).exitCode with
        | some c => some (.childExited c)
        | none =>
          if (obs i).portOpen then some .success
          else startLoop obs ts fuel (i + 1) := rfl

theorem sleepSpaced_lower (ts : Nat → Int) (h : SleepSpaced ts) :
    ∀ i : Nat, 500 * (i : Int) ≤ ts i := by
  intro i
  induction i with
  | zero => simpa using h.1
  | succ n ih =>
    have hstep := h.2 n
    push_cast
    push_cast at ih
    omega

theorem sleepSpaced_mono (ts : Nat → Int) (h : SleepSpaced ts) :
    ∀ i j : Nat, i ≤ j → ts i ≤ ts j := by
  intro i j hij
  induction j with
  | zero =>
    have h0 : i = 0 := Nat.le_zero.mp hij
    subst h0
    exact le_refl _
  | succ n ih =>
    rcases Nat.le_succ_iff.mp hij with hle | heq
    · have h1 := h.2 n
      have h2 := ih hle
      omega
    · subst heq
      exact le_refl _

theorem startLoop_isSome_of_fuel (obs : Nat → PollObs) (ts : Nat → Int)
    (h : SleepSpaced ts) :
    ∀ (k i : Nat), FLASK_STARTUP_TIMEOUT_MS - 500 * (k : Int) ≤ ts i →
      (startLoop obs ts (k + 1) i).isSome := by
  intro k
  induction k with
  | zero =>
    intro i hi
    rw [startLoop_succ_eq, if_pos (by simpa using hi)]
    rfl
  | succ n ih =>
    intro i hi
    rw [startLoop_succ_eq]
    by_cases htime : FLASK_STARTUP_TIMEOUT_MS ≤ ts i
    · rw [if_pos htime]; rfl
    · rw [if_neg htime]
      cases hexit : (obs i).exitCode with
      | some c => rfl
      | none =>
        by_cases hport : (obs i).portOpen
        · simp [hport]
        · simp only [hport, if_false, Bool.false_eq_true]
          refine ih (i + 1) ?_
          have hstep := h.2 i
          push_cast at hi
          push_cast
          omega

theorem startLoop_skip (obs : Nat → PollObs) (ts : Nat → Int) :
    ∀ (n fuel i : Nat),
      (∀ j, j < n → ts (i + j) < FLASK_STARTUP_TIMEOUT_MS ∧
        (obs (i + j)).exitCode = none ∧ (obs (i + j)).portOpen = false) →
      startLoop obs ts (n + fuel) i = startLoop obs ts fuel (i + n) := by
  intro n
  induction n with
  | zero => intro fuel i _; simp
  | succ m ih =>
    intro fuel i hpre
    obtain ⟨ht, he, hp⟩ := hpre 0 (Nat.succ_pos m)
    simp only [Nat.add_zero] at ht he hp
    have hstep : m + 1 + fuel = (m + fuel) + 1 := by omega
    rw [hstep, startLoop_succ_eq, if_neg (not_le.mpr ht), he,
      if_neg (by simp [hp])]
    have hnext := ih fuel (i + 1) (fun j hj => by
      have hj1 := hpre (j + 1) (by omega)
      have harith : i + 1 + j = i + (j + 1) := by omega
      rw [harith]
      exact hj1)
    rw [hnext]
    have harith2 : i + 1 + m = i + (m + 1) := by omega
    rw [harith2]

/-- C2: under any schedule whose condition checks are spaced by the 500 ms
sleep, the startup wait always reaches a definitive determination — one of
success (port accepted), child-exited (raised with the exit code), or the
30-second timeout (child terminated, timeout raised) — and whenever the
child is first observed exited at some poll `i` inside the 30-second window
with the port never having opened, the outcome is exactly the child-exited
error with that exit code, raised at that poll and not only after the full
timeout. -/
theorem start_flask_app_deterministic_outcome (obs : Nat → PollObs)
    (ts : Nat → Int) (h : SleepSpaced ts) :
    (∃ o, start_flask_app obs ts = some o) ∧
    (∀ (i : Nat) (c : Int),
      (∀ j, j < i → (obs j).exitCode = none ∧ (obs j).portOpen = false) →
      ts i < FLASK_STARTUP_TIMEOUT_MS → (obs i).exitCode = some c →
      start_flask_app obs ts = some (.childExited c)) := by
  constructor
  · have h0 : FLASK_STARTUP_TIMEOUT_MS - 500 * ((60 : Nat) : Int) ≤ ts 0 := by
      have := h.1
      rw [FLASK_STARTUP_TIMEOUT_MS]
      push_cast
      omega
    have := startLoop_isSome_of_fuel obs ts h 60 0 h0
    exact Option.isSome_iff_exists.mp this
  · intro i c hpre htime hexit
    have hi60 : i ≤ 60 := by
      have hlow := sleepSpaced_lower ts h i
      rw [FLASK_STARTUP_TIMEOUT_MS] at htime
      by_contra hgt
      push_neg at hgt
      have h61 : (61 : Int) ≤ (i : Int) := by exact_mod_cast hgt
      omega
    have hskip := startLoop_skip obs ts i (61 - i) 0 (fun j hj => by
      have hmono := sleepSpaced_mono ts h j i (Nat.le_of_lt hj)
      have hj1 := hpre j hj
      rw [Nat.zero_add]
      exact ⟨lt_of_le_of_lt hmono htime, hj1.1, hj1.2⟩)
    rw [Nat.zero_add] at hskip
    rw [start_flask_app]
    have hfuel : (61 : Nat) = i + (61 - i) := by omega
    rw [hfuel, hskip]
    have h61 : 61 - i = (60 - i) + 1 := by omega
    rw [h61, startLoop_succ_eq, if_neg (not_le.mpr htime), hexit]

/-- C2 witness: a schedule where the child is observed exited (code 3) at
the third poll, well inside the 30-second window, makes the startup wait
raise the child-exited error at that poll. -/
theorem start_flask_app_deterministic_outcome_witness :
    start_flask_app
      (fun i => if i = 2 then ⟨some 3, false⟩ else ⟨none, false⟩)
      (fun i => 500 * (i : Int)) = some (.childExited 3) :=
  (start_flask_app_deterministic_outcome
      (fun i => if i = 2 then ⟨some 3, false⟩ else ⟨none, false⟩)
      (fun i => 500 * (i : Int))
      ⟨by norm_num, fun i => by push_cast; omega⟩).2 2 3
    (fun j hj => by
      interval_cases j <;> exact ⟨rfl, rfl⟩)
    (by norm_num [FLASK_STARTUP_TIMEOUT_MS]) rfl

/-! ## C8 — idempotent shutdown -/

/-- C8: calling `shutdown_flask_app` twice in a row: the model of the call
is a total function (`TimeoutExpired` from the grace-period wait is caught,
and `terminate` checks the reaped status before signalling), so a second
call produces no error, and whatever the child did in the first call —
already gone, exiting within the grace period, or surviving until the
SIGKILL — the second call sends no termination signal at all, because by
then the `Popen` handle either is `None`-checked out or polls an exited
process and reaps it before signalling. -/
theorem shutdown_flask_app_idempotent (respondsToTerm : Bool)
    (fp : Option Proc) :
    (shutdown_flask_app respondsToTerm
      (shutdown_flask_app respondsToTerm fp).1).2 = [] := by
  match fp with
  | none => rfl
  | some ⟨alive, reaped⟩ =>
    cases alive <;> cases reaped <;> cases respondsToTerm <;> rfl

/-! ## C10 — tool-side normalisation drops invalid items -/

theorem length_filterMap_eq_countP {α β : Type} (f : α → Option β)
    (l : List α) :
    (l.filterMap f).length = l.countP (fun a => (f a).isSome) := by
  induction l with
  | nil => simp
  | cons a rest ih =>
    rw [List.filterMap_cons, List.countP_cons]
    cases hfa : f a with
    | none => simp [hfa, ih]
    | some b => simp [hfa, ih]

theorem length_filterMap_lt_of_none {α β : Type} (f : α → Option β)
    (l : List α) (a : α) (ha : a ∈ l) (hnone : f a = none) :
    (l.filterMap f).length < l.length := by
  induction l with
  | nil => cases ha
  | cons b rest ih =>
    rcases List.mem_cons.mp ha with ha | ha
    · subst ha
      rw [List.filterMap_cons, hnone]
      calc (rest.filterMap f).length ≤ rest.length :=
            List.length_filterMap_le f rest
        _ < (a :: rest).length := by simp
    · rw [List.filterMap_cons]
      cases hfb : f b with
      | none =>
        calc (rest.filterMap f).length < rest.length := ih ha
          _ ≤ (b :: rest).length := by simp
      | some c => simpa using ih ha

/-- C10: in `batch_search_tidal`, an input item is kept by the
normalisation exactly when it is a string or a dict with a non-empty
`query` value; dropped items leave no error slot, so the batch sent onward
— and hence the returned `results` list of a successful call — has exactly
one entry per kept item, strictly fewer than the submitted items whenever
any item was dropped; and if every item is dropped the call returns the
`No valid queries provided` error instead of an empty batch. -/
theorem batch_search_tidal_drops_invalid (oracle : SearchOracle)
    (queries : List ToolQueryItem) (l : Int)
    (h1 : 1 ≤ queries.length) (h2 : queries.length ≤ 100) :
    (∀ q : ToolQueryItem, (normalizeItem q).isSome ↔
      ((∃ s, q = .str s) ∨ ∃ s t, q = .dict (some s) t ∧ s ≠ "")) ∧
    (queries.filterMap normalizeItem).length =
      queries.countP (fun q => (normalizeItem q).isSome) ∧
    ((queries.filterMap normalizeItem).length = 0 →
      batch_search_tidal oracle queries l =
        .error "No valid queries provided") ∧
    (1 ≤ (queries.filterMap normalizeItem).length →
      batch_search_tidal oracle queries l =
        .success (((queries.filterMap normalizeItem).map toBackendItem).map
          (search_single oracle
            (clampLimitPerQuery (some (min (max 1 l) 20)))))
          (queries.filterMap normalizeItem).length) ∧
    ((∃ q ∈ queries, normalizeItem q = none) →
      (queries.filterMap normalizeItem).length < queries.length) := by
  have hne : ¬ queries.length = 0 := by omega
  have hle : ¬ 100 < queries.length := by omega
  refine ⟨?_, length_filterMap_eq_countP normalizeItem queries, ?_, ?_, ?_⟩
  · intro q
    match q with
    | .str s => simp [normalizeItem]
    | .dict none t => simp [normalizeItem]
    | .dict (some s) t =>
      by_cases hs : s = ""
      · subst hs
        simp [normalizeItem]
      · simp [normalizeItem, hs]
    | .other => simp [normalizeItem]
  · intro hz
    simp [batch_search_tidal, hne, hle, hz]
  · intro hpos
    have hz : ¬ (queries.filterMap normalizeItem).length = 0 := by omega
    have hmaplen : ((queries.filterMap normalizeItem).map toBackendItem).length
        = (queries.filterMap normalizeItem).length := List.length_map _ _
    have hblen1 : ¬ ((queries.filterMap normalizeItem).map
        toBackendItem).length = 0 := by omega
    have hblen2 : ¬ 100 < ((queries.filterMap normalizeItem).map
        toBackendItem).length := by
      have := List.length_filterMap_le normalizeItem queries
      omega
    simp only [batch_search_tidal, hne, hle, hz, if_false, if_neg hne,
      if_neg hle, if_neg hz]
    rw [batch_search]
    simp only [if_neg hblen1, if_neg hblen2]
    simp
  · rintro ⟨q, hq, hnone⟩
    exact length_filterMap_lt_of_none normalizeItem queries q hq hnone

/-- C10 witness: of five submitted items — a plain string, a non-string
non-dict value, a dict with no `query` key, a dict with an empty `query`,
and a dict with a non-empty `query` — only the first and last survive
normalisation, so the batch result has two slots, and a batch of only
invalid items returns the error. -/
theorem batch_search_tidal_drops_invalid_witness :
    ((normalizeItem (.str "a")).isSome ↔
      ((∃ s, ToolQueryItem.str "a" = .str s) ∨
        ∃ s t, ToolQueryItem.str "a" = .dict (some s) t ∧ s ≠ "")) ∧
    (([.str "a", .other, .dict none (some "t"), .dict (some "") none,
        .dict (some "q") none] : List ToolQueryItem).filterMap
      normalizeItem).length = 2 ∧
    (([.str "a", .other, .dict none (some "t"), .dict (some "") none,
        .dict (some "q") none] : List ToolQueryItem).filterMap
      normalizeItem).length < 5 ∧
    batch_search_tidal (fun q _ _ => .ok q.length)
      [.str "a", .other, .dict none (some "t"), .dict (some "") none,
        .dict (some "q") none] 5 =
      .success ((([.str "a", .other, .dict none (some "t"),
          .dict (some "") none, .dict (some "q") none] :
            List ToolQueryItem).filterMap normalizeItem).map toBackendItem
        |>.map (search_single (fun q _ _ => .ok q.length)
          (clampLimitPerQuery (some (min (max 1 5) 20))))) 2 := by
  have h := batch_search_tidal_drops_invalid (fun q _ _ => .ok q.length)
    [.str "a", .other, .dict none (some "t"), .dict (some "") none,
      .dict (some "q") none] 5 (by decide) (by decide)
  refine ⟨h.1 (.str "a"), by decide, ?_, ?_⟩
  · exact h.2.2.2.2 ⟨.other, by decide, rfl⟩
  · have hs := h.2.2.2.1 (by decide)
    simpa using hs

end TidalDlMcp
